import Mathlib

/-!
Verification model of the scrypt command-line driver (src/main.c).

The driver is modelled as pure functions:
  * option parsing (the getopt loop) becomes a fold over a list of parsed
    options, threading the state that main.c mutates;
  * the rest of main becomes a function from a command description and an
    environment oracle (results of fopen, readpass, getenv, and the
    scryptenc library calls) to an exit code plus a trace of the observable
    side effects, in program order;
  * C doubles are modelled as rationals (every constant used by main.c is
    exactly representable); machine integers as Nat/Int with explicit bounds.

String parsing of numeric option arguments (PARSENUM, humansize_parse) is an
external collaborator of the repository, so numeric option arguments appear
as already-parsed values; the range checks that main.c performs on them are
modelled exactly.
-/

namespace Scrypt

/-- The enum passphrase_entry of main.c (lines 43-50). -/
inductive PassphraseEntry where
  | unset
  | ttyStdin
  | stdinOnce
  | ttyOnce
  | env
  | file
  deriving DecidableEq, Repr

/-- Return codes of the scryptenc library (scryptenc.h); SCRYPT_OK is 0 and
every other code is a failure. -/
inductive ScryptRC where
  | ok
  | elimit
  | eclock
  | ekey
  | esalt
  | eopenssl
  | enomem
  | einval
  | eversion
  | etoobig
  | etooslow
  | epass
  | ewrfile
  | erdfile
  | eparam
  deriving DecidableEq, Repr

/-- The struct scryptenc_params of main.c, in initializer order:
maxmem (size_t), maxmemfrac (double), maxtime (double), logN, r, p (ints). -/
structure ScryptencParams where
  maxmem : Nat
  maxmemfrac : ℚ
  maxtime : ℚ
  logN : Int
  r : Int
  p : Int
  deriving DecidableEq, Repr

/-- The initializer of main.c line 122: params = (0, 0.5, 300.0, 0, 0, 0). -/
def initialParams : ScryptencParams :=
  { maxmem := 0, maxmemfrac := 1/2, maxtime := 300, logN := 0, r := 0, p := 0 }

/-- The three subcommands; the separate --version branch prints and exits 0
before any of the modelled behavior and is not needed by any claim. -/
inductive Subcommand where
  | enc
  | dec
  | info
  deriving DecidableEq, Repr

/-- The dec flag set by the subcommand dispatch (main.c line 144). -/
def isDec : Subcommand → Bool
  | .dec => true
  | _ => false

/-- The info flag set by the subcommand dispatch (main.c line 146). -/
def isInfo : Subcommand → Bool
  | .info => true
  | _ => false

/-- The params value after the subcommand dispatch (main.c lines 139-153):
the enc branch overwrites maxmem, maxmemfrac, maxtime; dec and info leave
the initializer untouched. -/
def paramsAfterSubcommand : Subcommand → ScryptencParams
  | .enc => { initialParams with maxmem := 0, maxmemfrac := 1/8, maxtime := 5 }
  | .dec => initialParams
  | .info => initialParams

/-- Equality decision for Except values, used to evaluate the model on
concrete inputs. -/
instance {α β : Type} [DecidableEq α] [DecidableEq β] :
    DecidableEq (Except α β) := fun a b =>
  match a, b with
  | .error x, .error y =>
    if h : x = y then .isTrue (by rw [h]) else .isFalse (by simp [h])
  | .error _, .ok _ => .isFalse (by simp)
  | .ok _, .error _ => .isFalse (by simp)
  | .ok x, .ok y =>
    if h : x = y then .isTrue (by rw [h]) else .isFalse (by simp [h])

/-- Model of strchr(s, ':') on the character list of s: the characters after
the first colon, or none when there is no colon. -/
def afterColonChars : List Char → Option (List Char)
  | [] => none
  | c :: cs => if c = ':' then some cs else afterColonChars cs

/-- Model of strchr(arg, ':') followed by taking the text after the first
colon: none when the string has no colon. -/
def afterColon (s : String) : Option String :=
  (afterColonChars s.toList).map fun cs => String.mk cs

/-- Model of strncmp(s, pre, strlen(pre)) == 0: pre is a prefix of s. -/
def charsPre : List Char → List Char → Bool
  | [], _ => true
  | _ :: _, [] => false
  | p :: ps, c :: cs => p == c && charsPre ps cs

/-- Prefix test on strings, via their character lists. -/
def strPre (pre s : String) : Bool := charsPre pre.toList s.toList

/-- parse_passphrase_arg (main.c lines 65-111).  The C function receives the
explicit parameter arg, but its env: and file: branches test the option
parser global variable optarg instead of arg, so the model takes both
strings.  Returns the selected entry method together with the passphrase
argument (the text after the first colon of arg), or none on the err1 path
(main then warns and exits 1). -/
def parse_passphrase_arg (arg optarg : String) : Option (PassphraseEntry × String) :=
  match afterColon arg with
  | none => none
  | some pa =>
    if strPre "dev:" arg then
      if pa = "tty-stdin" then some (.ttyStdin, pa)
      else if pa = "stdin-once" then some (.stdinOnce, pa)
      else if pa = "tty-once" then some (.ttyOnce, pa)
      else if strPre "env:" optarg then some (.env, pa)
      else if strPre "file:" optarg then some (.file, pa)
      else none
    else if strPre "env:" optarg then some (.env, pa)
    else if strPre "file:" optarg then some (.file, pa)
    else none

/-- One command-line option as delivered by the getopt loop.  Numeric
arguments appear as parsed values (string-to-number parsing is external);
the -M argument is none when humansize_parse fails on it. -/
inductive CliOpt where
  | f
  | v
  | P
  | l (n : Int)
  | r (n : Int)
  | p (n : Int)
  | M (sz : Option Nat)
  | m (q : ℚ)
  | t (q : ℚ)
  | passphrase (s : String)
  deriving DecidableEq, Repr

/-- The mutable state threaded through the getopt loop of main.c. -/
structure OptState where
  force_resources : Bool
  verbose : Bool
  params : ScryptencParams
  passphrase_entry : PassphraseEntry
  passphrase_arg : String
  deriving DecidableEq, Repr

/-- State on entry to the getopt loop: flags clear, params as set by the
subcommand dispatch, passphrase_entry = PASSPHRASE_UNSET. -/
def initOptState (sub : Subcommand) : OptState :=
  { force_resources := false
    verbose := false
    params := paramsAfterSubcommand sub
    passphrase_entry := .unset
    passphrase_arg := "" }

/-- SIZE_MAX of the (64-bit) platform, used by the -M bound check. -/
def sizeMax : Nat := 2 ^ 64 - 1

/-- The duplicated-passphrase-option diagnostic of main.c lines 200-201 and
221-222 (one string literal split over two source lines). -/
def dupPassphraseMsg : String := "You can only enter one --passphrase or -P argument"

/-- One iteration of the getopt switch (main.c lines 158-234).  An error
value carries the warn message; main exits with code 1 in that case.
PARSENUM range bounds are exactly those of the source: -l in [10, 2048],
-r and -p in [1, 128], -m in [0, 1], -t in [0, infinity). -/
def processOpt (st : OptState) : CliOpt → Except String OptState
  | .f => .ok { st with force_resources := true }
  | .v => .ok { st with verbose := true }
  | .l n =>
    if 10 ≤ n ∧ n ≤ 2048 then .ok { st with params.logN := n }
    else .error ("Invalid option: -l " ++ toString n)
  | .r n =>
    if 1 ≤ n ∧ n ≤ 128 then .ok { st with params.r := n }
    else .error ("Invalid option: -r " ++ toString n)
  | .p n =>
    if 1 ≤ n ∧ n ≤ 128 then .ok { st with params.p := n }
    else .error ("Invalid option: -p " ++ toString n)
  | .M sz =>
    match sz with
    | none => .error "Could not parse the parameter to -M."
    | some v =>
      if sizeMax < v then .error "The parameter to -M is too large."
      else .ok { st with params.maxmem := v }
  | .m q =>
    if 0 ≤ q ∧ q ≤ 1 then .ok { st with params.maxmemfrac := q }
    else .error ("Invalid option: -m " ++ toString q)
  | .t q =>
    if 0 ≤ q then .ok { st with params.maxtime := q }
    else .error ("Invalid option: -t " ++ toString q)
  | .passphrase s =>
    if st.passphrase_entry ≠ .unset then .error dupPassphraseMsg
    else
      match parse_passphrase_arg s s with
      | some (e, pa) => .ok { st with passphrase_entry := e, passphrase_arg := pa }
      | none => .error ("Invalid option: --passphrase " ++ s)
  | .P =>
    if st.passphrase_entry ≠ .unset then .error dupPassphraseMsg
    else .ok { st with passphrase_entry := .stdinOnce }

/-- The whole getopt loop: options processed left to right, stopping at the
first failure (main.c exits inside the loop). -/
def processOpts (st : OptState) : List CliOpt → Except String OptState
  | [] => .ok st
  | o :: os =>
    match processOpt st o with
    | .ok st' => processOpts st' os
    | .error e => .error e

/-- Whether an option is one of the two passphrase-selecting options. -/
def isPassOpt : CliOpt → Bool
  | .P => true
  | .passphrase _ => true
  | _ => false

/-- Observable side effects of main in program order. -/
inductive Event where
  | openInput (name : String)
  | warn (msg : String)
  | printparamsCall
  | readPass (devtty : Nat) (confirm : Option String)
  | getenvRead (name : String)
  | readpassFileCall (path : String)
  | getPasswd
  | prepCall
  | openOutput (name : String)
  | copyCall
  | encryptCall
  | cookieFree
  | memzeroPasswd
  | freePasswd
  | closeInput
  | closeOutput
  deriving DecidableEq, Repr

/-- Outcome of a run of main: the exit code and the event trace. -/
structure MainResult where
  exit : Nat
  trace : List Event
  deriving DecidableEq, Repr

/-- Oracle for everything outside main.c: success of fopen and of the
passphrase readers, and the return codes of the scryptenc library calls. -/
structure MainEnv where
  openInfileOk : Bool
  readpassOk : Bool
  getenvOk : Bool
  strdupOk : Bool
  readpassFileOk : Bool
  prepResult : ScryptRC
  copyResult : ScryptRC
  encResult : ScryptRC
  printparamsResult : ScryptRC
  openOutfileOk : Bool
  deriving DecidableEq, Repr

/-- The error message printed by the switch at the done label (main.c lines
374-424); EWRFILE and ERDFILE messages name the file or the standard
stream.  Never consulted for SCRYPT_OK. -/
def scryptErrMsg (rc : ScryptRC) (infilename outfilename : Option String) : String :=
  match rc with
  | .ok => ""
  | .elimit => "Error determining amount of available memory"
  | .eclock => "Error reading clocks"
  | .ekey => "Error computing derived key"
  | .esalt => "Error reading salt"
  | .eopenssl => "OpenSSL error"
  | .enomem => "Error allocating memory"
  | .einval => "Input is not valid scrypt-encrypted block"
  | .eversion => "Unrecognized scrypt format version"
  | .etoobig => "Decrypting file would require too much memory"
  | .etooslow => "Decrypting file would take too much CPU time"
  | .epass => "Passphrase is incorrect"
  | .ewrfile => "Error writing file: " ++ (match outfilename with
    | some o => o
    | none => "standard output")
  | .erdfile => "Error reading file: " ++ (match infilename with
    | some i => i
    | none => "standard input")
  | .eparam => "Error in the manually specified parameters"

/-- The done label (main.c lines 374-429): success returns 0, any other
return code warns and exits 1 (via err0). -/
def doneStep (rc : ScryptRC) (infilename outfilename : Option String)
    (acc : List Event) : MainResult :=
  if rc = .ok then ⟨0, acc⟩
  else ⟨1, acc ++ [.warn (scryptErrMsg rc infilename outfilename)]⟩

/-- The cleanup label (main.c lines 360-372): free the cookie, zero and free
the passphrase, close any opened files, then fall into done. -/
def cleanupStep (rc : ScryptRC) (inOpened outOpened : Bool)
    (infilename outfilename : Option String) (acc : List Event) : MainResult :=
  doneStep rc infilename outfilename
    (acc ++ [.cookieFree, .memzeroPasswd, .freePasswd]
      ++ (if inOpened then [.closeInput] else [])
      ++ (if outOpened then [.closeOutput] else []))

/-- The err1 label (main.c lines 435-437): close the input file if it is not
stdin, then exit 1. -/
def err1Step (inOpened : Bool) (acc : List Event) : MainResult :=
  ⟨1, acc ++ (if inOpened then [.closeInput] else [])⟩

/-- The err2 label (main.c lines 431-434): free the cookie, zero and free
the passphrase, then fall into err1. -/
def err2Step (inOpened : Bool) (acc : List Event) : MainResult :=
  err1Step inOpened (acc ++ [.cookieFree, .memzeroPasswd, .freePasswd])

/-- The encrypt-or-decrypt call (main.c lines 353-358) followed by cleanup. -/
def runOp (dec : Bool) (env : MainEnv) (inOpened outOpened : Bool)
    (infilename outfilename : Option String) (acc : List Event) : MainResult :=
  if dec then
    cleanupStep env.copyResult inOpened outOpened infilename outfilename
      (acc ++ [.copyCall])
  else
    cleanupStep env.encResult inOpened outOpened infilename outfilename
      (acc ++ [.encryptCall])

/-- Opening the output file when one was named (main.c lines 345-351); on
fopen failure main warns and goes to err2. -/
def outPhase (dec : Bool) (env : MainEnv) (inOpened : Bool)
    (infilename outfilename : Option String) (acc : List Event) : MainResult :=
  match outfilename with
  | some oname =>
    if env.openOutfileOk then
      runOp dec env inOpened true infilename outfilename
        (acc ++ [.openOutput oname])
    else
      err2Step inOpened
        (acc ++ [.openOutput oname, .warn ("Cannot open output file: " ++ oname)])
  | none => runOp dec env inOpened false infilename outfilename acc

/-- The decrypt prep call (main.c lines 337-343): when decrypting, run
scryptdec_file_prep before the output file is touched; on failure go to
cleanup with its return code. -/
def decPrepPhase (dec : Bool) (env : MainEnv) (inOpened : Bool)
    (infilename outfilename : Option String) (acc : List Event) : MainResult :=
  if dec then
    if env.prepResult = .ok then
      outPhase dec env inOpened infilename outfilename (acc ++ [.prepCall])
    else
      cleanupStep env.prepResult inOpened false infilename outfilename
        (acc ++ [.prepCall])
  else
    outPhase dec env inOpened infilename outfilename acc

/-- The confirmation prompt passed to readpass in the tty-stdin case
(main.c line 293): NULL when decrypting. -/
def confirmPrompt (dec : Bool) : Option String :=
  if dec then none else some "Please confirm passphrase"

/-- The passphrase-acquisition switch (main.c lines 289-326); on success the
passphrase buffer exists (getPasswd) and control continues with the decrypt
prep phase; every failure goes to err1. -/
def passwdPhase (dec : Bool) (entry : PassphraseEntry) (parg : String)
    (env : MainEnv) (inOpened : Bool) (infilename outfilename : Option String)
    (acc : List Event) : MainResult :=
  match entry with
  | .ttyStdin =>
    if env.readpassOk then
      decPrepPhase dec env inOpened infilename outfilename
        (acc ++ [.readPass 1 (confirmPrompt dec), .getPasswd])
    else err1Step inOpened (acc ++ [.readPass 1 (confirmPrompt dec)])
  | .stdinOnce =>
    if env.readpassOk then
      decPrepPhase dec env inOpened infilename outfilename
        (acc ++ [.readPass 0 none, .getPasswd])
    else err1Step inOpened (acc ++ [.readPass 0 none])
  | .ttyOnce =>
    if env.readpassOk then
      decPrepPhase dec env inOpened infilename outfilename
        (acc ++ [.readPass 2 none, .getPasswd])
    else err1Step inOpened (acc ++ [.readPass 2 none])
  | .env =>
    if env.getenvOk then
      if env.strdupOk then
        decPrepPhase dec env inOpened infilename outfilename
          (acc ++ [.getenvRead parg, .getPasswd])
      else err1Step inOpened (acc ++ [.getenvRead parg, .warn "Out of memory"])
    else
      err1Step inOpened
        (acc ++ [.getenvRead parg,
          .warn ("Failed to read from $\x7b" ++ parg ++ "\x7d")])
  | .file =>
    if env.readpassFileOk then
      decPrepPhase dec env inOpened infilename outfilename
        (acc ++ [.readpassFileCall parg, .getPasswd])
    else err1Step inOpened (acc ++ [.readpassFileCall parg])
  | .unset =>
    err1Step inOpened
      (acc ++ [.warn "Programming error: passphrase_entry is not set"])

/-- Control after the input stream is settled (main.c lines 276-326): info
mode prints the parameters, closes the input and goes to done; otherwise
the passphrase is acquired. -/
def afterInput (sub : Subcommand) (entry : PassphraseEntry) (parg : String)
    (env : MainEnv) (inOpened : Bool) (infilename outfilename : Option String)
    (acc : List Event) : MainResult :=
  if isInfo sub then
    doneStep env.printparamsResult infilename outfilename
      (acc ++ [.printparamsCall] ++ (if inOpened then [.closeInput] else []))
  else
    passwdPhase (isDec sub) entry parg env inOpened infilename outfilename acc

/-- A parsed command line: subcommand, getopt options in order, whether the
infile positional argument is "-", its name otherwise, and the optional
outfile positional argument. -/
structure Cmdline where
  sub : Subcommand
  opts : List CliOpt
  infileDash : Bool
  infilename : String
  outfilename : Option String
  deriving DecidableEq, Repr

/-- The stdin-conflict diagnostic of main.c lines 269-270 (one string
literal split over two source lines). -/
def conflictMsg : String :=
  "Cannot read both passphrase and input file from standard input"

/-- The driver from the getopt loop onward (main.c lines 158-441): option
processing, positional arguments, the default passphrase entry method, the
input stream (with the stdin/stdin-once conflict check), then info mode or
the passphrase/prep/output/operation sequence. -/
def runMain (c : Cmdline) (env : MainEnv) : MainResult :=
  match processOpts (initOptState c.sub) c.opts with
  | .error e => ⟨1, [.warn e]⟩
  | .ok st =>
    let entry := if st.passphrase_entry = .unset then .ttyStdin
      else st.passphrase_entry
    if c.infileDash then
      if entry = PassphraseEntry.stdinOnce then
        ⟨1, [.warn conflictMsg]⟩
      else
        afterInput c.sub entry st.passphrase_arg env false none c.outfilename []
    else
      if env.openInfileOk then
        afterInput c.sub entry st.passphrase_arg env true (some c.infilename)
          c.outfilename [.openInput c.infilename]
      else
        ⟨1, [.openInput c.infilename,
          .warn ("Cannot open input file: " ++ c.infilename)]⟩

/-- An environment oracle in which every external call succeeds. -/
def allOkEnv : MainEnv :=
  { openInfileOk := true
    readpassOk := true
    getenvOk := true
    strdupOk := true
    readpassFileOk := true
    prepResult := .ok
    copyResult := .ok
    encResult := .ok
    printparamsResult := .ok
    openOutfileOk := true }

/-- The rational 3/4, written as an explicit fraction so that the model can
be evaluated on it by kernel reduction; it stands for the double 0.75. -/
def threeQuarters : ℚ := ⟨3, 4, by norm_num, by norm_num⟩

/-- Concrete command line: decrypt from standard input with -P. -/
def stdinPCmd : Cmdline :=
  { sub := .dec
    opts := [CliOpt.P]
    infileDash := true
    infilename := ""
    outfilename := none }

/-- Concrete command line: encrypt with a malformed --passphrase argument
followed by -P. -/
def dupMalformedCmd : Cmdline :=
  { sub := .enc
    opts := [.passphrase "bogus", .P]
    infileDash := false
    infilename := "in"
    outfilename := none }

/-- Concrete command line: encrypt with -P given twice. -/
def dupTwicePCmd : Cmdline :=
  { sub := .enc
    opts := [CliOpt.P, CliOpt.P]
    infileDash := false
    infilename := "in"
    outfilename := none }

/-- Concrete command line: decrypt a named file to a named file, with no
options. -/
def decFileCmd : Cmdline :=
  { sub := .dec
    opts := []
    infileDash := false
    infilename := "in"
    outfilename := some "out" }

/-- Concrete command line: encrypt a named file to a named file, with no
options. -/
def encFileCmd : Cmdline :=
  { sub := .enc
    opts := []
    infileDash := false
    infilename := "in"
    outfilename := some "out" }

/-- An environment oracle in which decrypt prep fails with a wrong
passphrase and everything else succeeds. -/
def prepFailEnv : MainEnv := { allOkEnv with prepResult := .epass }

/-!  Helper lemmas about the getopt loop. -/

theorem processOpts_append (st : OptState) (l1 l2 : List CliOpt) :
    processOpts st (l1 ++ l2) =
      match processOpts st l1 with
      | .ok st' => processOpts st' l2
      | .error e => .error e := by
  induction l1 generalizing st with
  | nil => simp [processOpts]
  | cons o os ih =>
    simp only [List.cons_append, processOpts]
    cases processOpt st o with
    | ok st' => exact ih st'
    | error e => rfl

theorem parse_passphrase_arg_ne_unset {a b : String} {e : PassphraseEntry}
    {pa : String} (h : parse_passphrase_arg a b = some (e, pa)) :
    e ≠ PassphraseEntry.unset := by
  unfold parse_passphrase_arg at h
  repeat' split at h
  all_goals (try cases h)
  all_goals decide

theorem processOpt_entry_eq {st st' : OptState} {o : CliOpt}
    (hno : isPassOpt o = false) (hok : processOpt st o = .ok st') :
    st'.passphrase_entry = st.passphrase_entry := by
  cases o with
  | f => cases hok; rfl
  | v => cases hok; rfl
  | l n =>
    simp only [processOpt] at hok
    split at hok
    · cases hok; rfl
    · cases hok
  | r n =>
    simp only [processOpt] at hok
    split at hok
    · cases hok; rfl
    · cases hok
  | p n =>
    simp only [processOpt] at hok
    split at hok
    · cases hok; rfl
    · cases hok
  | M sz =>
    cases sz with
    | none => cases hok
    | some v =>
      simp only [processOpt] at hok
      split at hok
      · cases hok
      · cases hok; rfl
  | m q =>
    simp only [processOpt] at hok
    split at hok
    · cases hok; rfl
    · cases hok
  | t q =>
    simp only [processOpt] at hok
    split at hok
    · cases hok; rfl
    · cases hok
  | passphrase s => simp [isPassOpt] at hno
  | P => simp [isPassOpt] at hno

theorem processOpt_pass_sets {st st' : OptState} {o : CliOpt}
    (hp : isPassOpt o = true) (hok : processOpt st o = .ok st') :
    st'.passphrase_entry ≠ PassphraseEntry.unset := by
  cases o <;> try simp [isPassOpt] at hp
  case passphrase s =>
    simp only [processOpt] at hok
    split at hok
    · cases hok
    · rcases hpp : parse_passphrase_arg s s with _ | ⟨e, pa⟩ <;> rw [hpp] at hok
      · cases hok
      · cases hok
        simpa using parse_passphrase_arg_ne_unset hpp
  case P =>
    simp only [processOpt] at hok
    split at hok
    · cases hok
    · cases hok
      simp

theorem processOpt_preserves_set {st st' : OptState} {o : CliOpt}
    (hset : st.passphrase_entry ≠ PassphraseEntry.unset)
    (hok : processOpt st o = .ok st') :
    st'.passphrase_entry ≠ PassphraseEntry.unset := by
  cases hp : isPassOpt o with
  | true => exact processOpt_pass_sets hp hok
  | false => rw [processOpt_entry_eq hp hok]; exact hset

theorem processOpts_preserves_set {st st' : OptState} {l : List CliOpt}
    (hok : processOpts st l = .ok st')
    (hset : st.passphrase_entry ≠ PassphraseEntry.unset) :
    st'.passphrase_entry ≠ PassphraseEntry.unset := by
  induction l generalizing st with
  | nil => cases hok; exact hset
  | cons o os ih =>
    simp only [processOpts] at hok
    cases ho : processOpt st o with
    | ok st1 =>
      rw [ho] at hok
      exact ih hok (processOpt_preserves_set hset ho)
    | error e => rw [ho] at hok; cases hok

theorem processOpts_entry_eq {st st' : OptState} {l : List CliOpt}
    (hno : ∀ o ∈ l, isPassOpt o = false)
    (hok : processOpts st l = .ok st') :
    st'.passphrase_entry = st.passphrase_entry := by
  induction l generalizing st with
  | nil => cases hok; rfl
  | cons o os ih =>
    simp only [processOpts] at hok
    cases ho : processOpt st o with
    | ok st1 =>
      rw [ho] at hok
      rw [ih (fun x hx => hno x (List.mem_cons_of_mem o hx)) hok]
      exact processOpt_entry_eq (hno o (List.mem_cons_self o os)) ho
    | error e => rw [ho] at hok; cases hok

theorem processOpt_pass_dup {st : OptState} {o : CliOpt}
    (hset : st.passphrase_entry ≠ PassphraseEntry.unset)
    (hp : isPassOpt o = true) :
    processOpt st o = .error dupPassphraseMsg := by
  cases o <;> try simp [isPassOpt] at hp
  case passphrase s => simp [processOpt, hset]
  case P => simp [processOpt, hset]

/-!  Helper lemmas about the trace produced by each phase of main. -/

theorem mem_doneStep {e : Event} {rc : ScryptRC} {i o : Option String}
    {acc : List Event} (h : e ∈ acc) : e ∈ (doneStep rc i o acc).trace := by
  unfold doneStep
  split <;> simp [h]

theorem mem_cleanupStep {e : Event} {rc : ScryptRC} {io oo : Bool}
    {i o : Option String} {acc : List Event} (h : e ∈ acc) :
    e ∈ (cleanupStep rc io oo i o acc).trace := by
  unfold cleanupStep
  exact mem_doneStep (by simp [h])

theorem mem_err1Step {e : Event} {io : Bool} {acc : List Event} (h : e ∈ acc) :
    e ∈ (err1Step io acc).trace := by
  unfold err1Step
  simp [h]

theorem mem_err2Step {e : Event} {io : Bool} {acc : List Event} (h : e ∈ acc) :
    e ∈ (err2Step io acc).trace := by
  unfold err2Step
  exact mem_err1Step (by simp [h])

theorem mem_runOp {e : Event} {dec : Bool} {env : MainEnv} {io oo : Bool}
    {i o : Option String} {acc : List Event} (h : e ∈ acc) :
    e ∈ (runOp dec env io oo i o acc).trace := by
  unfold runOp
  split <;> exact mem_cleanupStep (by simp [h])

theorem mem_outPhase {e : Event} {dec : Bool} {env : MainEnv} {io : Bool}
    {i o : Option String} {acc : List Event} (h : e ∈ acc) :
    e ∈ (outPhase dec env io i o acc).trace := by
  unfold outPhase
  rcases o with _ | oname
  · exact mem_runOp h
  · dsimp only
    split
    · exact mem_runOp (by simp [h])
    · exact mem_err2Step (by simp [h])

theorem mem_decPrepPhase {e : Event} {dec : Bool} {env : MainEnv} {io : Bool}
    {i o : Option String} {acc : List Event} (h : e ∈ acc) :
    e ∈ (decPrepPhase dec env io i o acc).trace := by
  unfold decPrepPhase
  split
  · split
    · exact mem_outPhase (by simp [h])
    · exact mem_cleanupStep (by simp [h])
  · exact mem_outPhase h

theorem exit_doneStep_fail {rc : ScryptRC} {i o : Option String}
    {acc : List Event} (h : rc ≠ .ok) : (doneStep rc i o acc).exit = 1 := by
  unfold doneStep
  rw [if_neg h]

theorem exit_cleanupStep_fail {rc : ScryptRC} {io oo : Bool}
    {i o : Option String} {acc : List Event} (h : rc ≠ .ok) :
    (cleanupStep rc io oo i o acc).exit = 1 := by
  unfold cleanupStep
  exact exit_doneStep_fail h

theorem exit_err1Step {io : Bool} {acc : List Event} :
    (err1Step io acc).exit = 1 := rfl

theorem exit_err2Step {io : Bool} {acc : List Event} :
    (err2Step io acc).exit = 1 := rfl

/-!  Where an openOutput event can come from, phase by phase. -/

theorem openOutput_doneStep {n : String} {rc : ScryptRC} {i o : Option String}
    {acc : List Event} :
    Event.openOutput n ∈ (doneStep rc i o acc).trace ↔ Event.openOutput n ∈ acc := by
  unfold doneStep
  split <;> simp

theorem openOutput_cleanupStep {n : String} {rc : ScryptRC} {io oo : Bool}
    {i o : Option String} {acc : List Event} :
    Event.openOutput n ∈ (cleanupStep rc io oo i o acc).trace ↔
      Event.openOutput n ∈ acc := by
  unfold cleanupStep
  rw [openOutput_doneStep]
  split <;> split <;> simp

theorem openOutput_err1Step {n : String} {io : Bool} {acc : List Event} :
    Event.openOutput n ∈ (err1Step io acc).trace ↔ Event.openOutput n ∈ acc := by
  unfold err1Step
  split <;> simp

theorem openOutput_err2Step {n : String} {io : Bool} {acc : List Event} :
    Event.openOutput n ∈ (err2Step io acc).trace ↔ Event.openOutput n ∈ acc := by
  unfold err2Step
  rw [openOutput_err1Step]
  simp

theorem openOutput_runOp {n : String} {dec : Bool} {env : MainEnv}
    {io oo : Bool} {i o : Option String} {acc : List Event} :
    Event.openOutput n ∈ (runOp dec env io oo i o acc).trace ↔
      Event.openOutput n ∈ acc := by
  unfold runOp
  split <;> rw [openOutput_cleanupStep] <;> simp

theorem openOutput_outPhase {n : String} {dec : Bool} {env : MainEnv}
    {io : Bool} {i o : Option String} {acc : List Event} :
    Event.openOutput n ∈ (outPhase dec env io i o acc).trace ↔
      (Event.openOutput n ∈ acc ∨ o = some n) := by
  unfold outPhase
  rcases o with _ | oname
  · rw [openOutput_runOp]; simp
  · dsimp only
    split
    · rw [openOutput_runOp]; simp [eq_comm]
    · rw [openOutput_err2Step]; simp [eq_comm]

theorem openOutput_decPrepPhase_dec {n : String} {env : MainEnv} {io : Bool}
    {i o : Option String} {acc : List Event}
    (h : Event.openOutput n ∈ (decPrepPhase true env io i o acc).trace) :
    Event.openOutput n ∈ acc ∨
      (env.prepResult = .ok ∧ o = some n ∧
        Event.prepCall ∈ (decPrepPhase true env io i o acc).trace) := by
  unfold decPrepPhase at h ⊢
  simp only [if_pos rfl] at h ⊢
  by_cases hp : env.prepResult = .ok
  · rw [if_pos hp] at h ⊢
    rcases openOutput_outPhase.1 h with h' | h'
    · rcases List.mem_append.1 h' with h'' | h''
      · exact Or.inl h''
      · simp at h''
    · exact Or.inr ⟨hp, h', mem_outPhase (by simp)⟩
  · rw [if_neg hp] at h
    rcases openOutput_cleanupStep.1 h with h'
    rcases List.mem_append.1 h' with h'' | h''
    · exact Or.inl h''
    · simp at h''

theorem openOutput_decPrep_extend {n : String} {env : MainEnv} {io : Bool}
    {i o : Option String} {acc l : List Event}
    (hl : Event.openOutput n ∉ l)
    (h : Event.openOutput n ∈ (decPrepPhase true env io i o (acc ++ l)).trace) :
    Event.openOutput n ∈ acc ∨
      (env.prepResult = .ok ∧ o = some n ∧
        Event.prepCall ∈ (decPrepPhase true env io i o (acc ++ l)).trace) := by
  rcases openOutput_decPrepPhase_dec h with h' | h'
  · rcases List.mem_append.1 h' with h'' | h''
    · exact Or.inl h''
    · exact absurd h'' hl
  · exact Or.inr h'

theorem openOutput_err1_extend {n : String} {io : Bool} {acc l : List Event}
    (hl : Event.openOutput n ∉ l)
    (h : Event.openOutput n ∈ (err1Step io (acc ++ l)).trace) :
    Event.openOutput n ∈ acc := by
  rcases List.mem_append.1 (openOutput_err1Step.1 h) with h'' | h''
  · exact h''
  · exact absurd h'' hl

theorem openOutput_passwdPhase_dec {n : String} {entry : PassphraseEntry}
    {parg : String} {env : MainEnv} {io : Bool} {i o : Option String}
    {acc : List Event}
    (h : Event.openOutput n ∈ (passwdPhase true entry parg env io i o acc).trace) :
    Event.openOutput n ∈ acc ∨
      (env.prepResult = .ok ∧ o = some n ∧
        Event.prepCall ∈ (passwdPhase true entry parg env io i o acc).trace) := by
  unfold passwdPhase at h ⊢
  cases entry <;> dsimp only at h ⊢
  case unset => exact Or.inl (openOutput_err1_extend (by simp) h)
  case ttyStdin =>
    by_cases hr : env.readpassOk = true
    · rw [if_pos hr] at h ⊢
      exact openOutput_decPrep_extend (by simp) h
    · rw [if_neg hr] at h
      exact Or.inl (openOutput_err1_extend (by simp) h)
  case stdinOnce =>
    by_cases hr : env.readpassOk = true
    · rw [if_pos hr] at h ⊢
      exact openOutput_decPrep_extend (by simp) h
    · rw [if_neg hr] at h
      exact Or.inl (openOutput_err1_extend (by simp) h)
  case ttyOnce =>
    by_cases hr : env.readpassOk = true
    · rw [if_pos hr] at h ⊢
      exact openOutput_decPrep_extend (by simp) h
    · rw [if_neg hr] at h
      exact Or.inl (openOutput_err1_extend (by simp) h)
  case env =>
    by_cases hg : env.getenvOk = true
    · rw [if_pos hg] at h ⊢
      by_cases hs : env.strdupOk = true
      · rw [if_pos hs] at h ⊢
        exact openOutput_decPrep_extend (by simp) h
      · rw [if_neg hs] at h
        exact Or.inl (openOutput_err1_extend (by simp) h)
    · rw [if_neg hg] at h
      exact Or.inl (openOutput_err1_extend (by simp) h)
  case file =>
    by_cases hr : env.readpassFileOk = true
    · rw [if_pos hr] at h ⊢
      exact openOutput_decPrep_extend (by simp) h
    · rw [if_neg hr] at h
      exact Or.inl (openOutput_err1_extend (by simp) h)

theorem exit_decPrepPhase_fail {env : MainEnv} {io : Bool}
    {i o : Option String} {acc : List Event} (h : env.prepResult ≠ .ok) :
    (decPrepPhase true env io i o acc).exit = 1 := by
  unfold decPrepPhase
  rw [if_pos rfl, if_neg h]
  exact exit_cleanupStep_fail h

theorem exit_passwdPhase_fail {entry : PassphraseEntry} {parg : String}
    {env : MainEnv} {io : Bool} {i o : Option String} {acc : List Event}
    (h : env.prepResult ≠ .ok) :
    (passwdPhase true entry parg env io i o acc).exit = 1 := by
  unfold passwdPhase
  cases entry <;> dsimp only <;> (try split) <;> (try split) <;>
    first
    | exact exit_decPrepPhase_fail h
    | exact exit_err1Step

/-!  Decomposition lemmas: every path through cleanup or err2 zeroes the
passphrase buffer immediately before freeing it. -/

theorem cleanupStep_decomp (rc : ScryptRC) (io oo : Bool)
    (i o : Option String) (acc : List Event) :
    ∃ post, (cleanupStep rc io oo i o acc).trace =
      (acc ++ [Event.cookieFree]) ++
        Event.memzeroPasswd :: Event.freePasswd :: post := by
  unfold cleanupStep doneStep
  split
  · refine ⟨(if io then [Event.closeInput] else [])
      ++ (if oo then [Event.closeOutput] else []), ?_⟩
    simp
  · refine ⟨(if io then [Event.closeInput] else [])
      ++ (if oo then [Event.closeOutput] else [])
      ++ [Event.warn (scryptErrMsg rc i o)], ?_⟩
    simp

theorem err2Step_decomp (io : Bool) (acc : List Event) :
    ∃ post, (err2Step io acc).trace =
      (acc ++ [Event.cookieFree]) ++
        Event.memzeroPasswd :: Event.freePasswd :: post := by
  unfold err2Step err1Step
  refine ⟨if io then [Event.closeInput] else [], ?_⟩
  simp

theorem runOp_decomp (dec : Bool) (env : MainEnv) (io oo : Bool)
    (i o : Option String) (acc : List Event) :
    ∃ pre post, (runOp dec env io oo i o acc).trace =
      pre ++ Event.memzeroPasswd :: Event.freePasswd :: post ∧ acc ⊆ pre := by
  unfold runOp
  split
  · obtain ⟨post, hp⟩ :=
      cleanupStep_decomp env.copyResult io oo i o (acc ++ [Event.copyCall])
    exact ⟨_, post, hp, fun e he => by simp [he]⟩
  · obtain ⟨post, hp⟩ :=
      cleanupStep_decomp env.encResult io oo i o (acc ++ [Event.encryptCall])
    exact ⟨_, post, hp, fun e he => by simp [he]⟩

theorem outPhase_decomp (dec : Bool) (env : MainEnv) (io : Bool)
    (i o : Option String) (acc : List Event) :
    ∃ pre post, (outPhase dec env io i o acc).trace =
      pre ++ Event.memzeroPasswd :: Event.freePasswd :: post ∧ acc ⊆ pre := by
  unfold outPhase
  rcases o with _ | oname
  · exact runOp_decomp dec env io false i none acc
  · dsimp only
    split
    · obtain ⟨pre, post, hp, hs⟩ :=
        runOp_decomp dec env io true i (some oname)
          (acc ++ [Event.openOutput oname])
      exact ⟨pre, post, hp, fun e he => hs (by simp [he])⟩
    · obtain ⟨post, hp⟩ := err2Step_decomp io
        (acc ++ [Event.openOutput oname,
          Event.warn ("Cannot open output file: " ++ oname)])
      exact ⟨_, post, hp, fun e he => by simp [he]⟩

theorem decPrepPhase_decomp (dec : Bool) (env : MainEnv) (io : Bool)
    (i o : Option String) (acc : List Event) :
    ∃ pre post, (decPrepPhase dec env io i o acc).trace =
      pre ++ Event.memzeroPasswd :: Event.freePasswd :: post ∧ acc ⊆ pre := by
  unfold decPrepPhase
  split
  · split
    · obtain ⟨pre, post, hp, hs⟩ :=
        outPhase_decomp dec env io i o (acc ++ [Event.prepCall])
      exact ⟨pre, post, hp, fun e he => hs (by simp [he])⟩
    · obtain ⟨post, hp⟩ :=
        cleanupStep_decomp env.prepResult io false i o (acc ++ [Event.prepCall])
      exact ⟨_, post, hp, fun e he => by simp [he]⟩
  · exact outPhase_decomp dec env io i o acc

theorem getPasswd_err1Step {io : Bool} {acc : List Event}
    (h : Event.getPasswd ∈ (err1Step io acc).trace) :
    Event.getPasswd ∈ acc := by
  unfold err1Step at h
  rcases List.mem_append.1 h with h' | h'
  · exact h'
  · revert h'
    split <;> simp

theorem getPasswd_doneStep {rc : ScryptRC} {i o : Option String}
    {acc : List Event} (h : Event.getPasswd ∈ (doneStep rc i o acc).trace) :
    Event.getPasswd ∈ acc := by
  unfold doneStep at h
  revert h
  split
  · exact id
  · intro h
    rcases List.mem_append.1 h with h' | h'
    · exact h'
    · simp at h'

theorem passwdPhase_zeroized {dec : Bool} {entry : PassphraseEntry}
    {parg : String} {env : MainEnv} {io : Bool} {i o : Option String}
    {acc : List Event} (hacc : Event.getPasswd ∉ acc)
    (h : Event.getPasswd ∈ (passwdPhase dec entry parg env io i o acc).trace) :
    ∃ pre post, (passwdPhase dec entry parg env io i o acc).trace =
      pre ++ Event.memzeroPasswd :: Event.freePasswd :: post ∧
      Event.getPasswd ∈ pre := by
  unfold passwdPhase at h ⊢
  cases entry <;> dsimp only at h ⊢
  case unset =>
    exact absurd (getPasswd_err1Step h) (by simp [hacc])
  case ttyStdin =>
    by_cases hr : env.readpassOk = true
    · rw [if_pos hr] at h ⊢
      obtain ⟨pre, post, hp, hs⟩ := decPrepPhase_decomp dec env io i o
        (acc ++ [Event.readPass 1 (confirmPrompt dec), Event.getPasswd])
      exact ⟨pre, post, hp, hs (by simp)⟩
    · rw [if_neg hr] at h
      exact absurd (getPasswd_err1Step h) (by simp [hacc])
  case stdinOnce =>
    by_cases hr : env.readpassOk = true
    · rw [if_pos hr] at h ⊢
      obtain ⟨pre, post, hp, hs⟩ := decPrepPhase_decomp dec env io i o
        (acc ++ [Event.readPass 0 none, Event.getPasswd])
      exact ⟨pre, post, hp, hs (by simp)⟩
    · rw [if_neg hr] at h
      exact absurd (getPasswd_err1Step h) (by simp [hacc])
  case ttyOnce =>
    by_cases hr : env.readpassOk = true
    · rw [if_pos hr] at h ⊢
      obtain ⟨pre, post, hp, hs⟩ := decPrepPhase_decomp dec env io i o
        (acc ++ [Event.readPass 2 none, Event.getPasswd])
      exact ⟨pre, post, hp, hs (by simp)⟩
    · rw [if_neg hr] at h
      exact absurd (getPasswd_err1Step h) (by simp [hacc])
  case env =>
    by_cases hg : env.getenvOk = true
    · rw [if_pos hg] at h ⊢
      by_cases hs2 : env.strdupOk = true
      · rw [if_pos hs2] at h ⊢
        obtain ⟨pre, post, hp, hs⟩ := decPrepPhase_decomp dec env io i o
          (acc ++ [Event.getenvRead parg, Event.getPasswd])
        exact ⟨pre, post, hp, hs (by simp)⟩
      · rw [if_neg hs2] at h
        exact absurd (getPasswd_err1Step h) (by simp [hacc])
    · rw [if_neg hg] at h
      exact absurd (getPasswd_err1Step h) (by simp [hacc])
  case file =>
    by_cases hr : env.readpassFileOk = true
    · rw [if_pos hr] at h ⊢
      obtain ⟨pre, post, hp, hs⟩ := decPrepPhase_decomp dec env io i o
        (acc ++ [Event.readpassFileCall parg, Event.getPasswd])
      exact ⟨pre, post, hp, hs (by simp)⟩
    · rw [if_neg hr] at h
      exact absurd (getPasswd_err1Step h) (by simp [hacc])

theorem readPass_passwdPhase_ttyStdin (dec : Bool) (parg : String)
    (env : MainEnv) (io : Bool) (i o : Option String) (acc : List Event) :
    Event.readPass 1 (confirmPrompt dec) ∈
      (passwdPhase dec .ttyStdin parg env io i o acc).trace := by
  unfold passwdPhase
  dsimp only
  split
  · exact mem_decPrepPhase (by simp)
  · exact mem_err1Step (by simp)

/-!  The claim theorems. -/

/-- C2 (code_bug): parse_passphrase_arg is claimed to classify the method
from its explicit arg parameter alone, but the env: and file: branches of
the source test the option parser global optarg.  With arg = optarg (the
only way main calls it) env:KEY selects the env method; holding arg fixed
and changing only the global optarg changes the result: with optarg =
dev:tty-stdin the same arg is rejected, and an arg of file:pw.txt is
classified as the env method when optarg starts with env:. -/
theorem parse_passphrase_arg_reads_global_optarg :
    parse_passphrase_arg "env:KEY" "env:KEY" =
      some (PassphraseEntry.env, "KEY") ∧
    parse_passphrase_arg "env:KEY" "dev:tty-stdin" = none ∧
    parse_passphrase_arg "file:pw.txt" "env:KEY" =
      some (PassphraseEntry.env, "pw.txt") :=
  ⟨by decide, by decide, by decide⟩

/-- C3 (code_bug): the claim (and the spec) say -l accepts exactly
[10, 40], but the PARSENUM call in the source uses the bounds 10 and 2048:
-l 100 and -l 2048 are accepted, while -l 2 and -l 2049 are rejected with
the Invalid option diagnostic and exit code 1. -/
theorem logN_option_accepts_beyond_40 :
    processOpt (initOptState .enc) (.l 100) =
      .ok { initOptState .enc with params.logN := 100 } ∧
    processOpt (initOptState .enc) (.l 2048) =
      .ok { initOptState .enc with params.logN := 2048 } ∧
    processOpt (initOptState .enc) (.l 2) = .error "Invalid option: -l 2" ∧
    processOpt (initOptState .enc) (.l 2049) =
      .error "Invalid option: -l 2049" :=
  ⟨rfl, rfl, rfl, rfl⟩

/-- C4 counterexample: the fraction 3/4 (the double 0.75) lies outside the
claimed range [0, 0.5], yet the -m option of the source accepts it (its
PARSENUM bounds are 0 and 1), so it is not rejected with exit code 1. -/
theorem maxmemfrac_above_half_accepted :
    processOpt (initOptState .enc) (.m threeQuarters) =
      .ok { initOptState .enc with params.maxmemfrac := threeQuarters } ∧
    ¬(threeQuarters ≤ 1/2) := by
  constructor
  · rfl
  · have h : threeQuarters = 3/4 := by
      unfold threeQuarters
      rw [Rat.mk'_eq_divInt]
      norm_num [Rat.divInt_eq_div]
    rw [h]
    norm_num

/-- C4 (amended): the -m option accepts exactly the fractions in [0, 1];
any value outside that range is rejected with exit code 1 and the
diagnostic Invalid option: -m followed by the value.  (Values in (0.5, 1]
are passed through to the library, which snaps them to 0.5.) -/
theorem maxmemfrac_option_range (st : OptState) (q : ℚ) :
    ((0 ≤ q ∧ q ≤ 1) →
      processOpt st (.m q) = .ok { st with params.maxmemfrac := q }) ∧
    (¬(0 ≤ q ∧ q ≤ 1) →
      processOpt st (.m q) = .error ("Invalid option: -m " ++ toString q)) := by
  constructor <;> intro h <;> simp [processOpt, h]

/-- Witness for the amended C4 theorem at the in-range value 1 and the
out-of-range value 2. -/
theorem maxmemfrac_option_range_witness :
    (((0:ℚ) ≤ 1 ∧ (1:ℚ) ≤ 1) ∧ ¬((0:ℚ) ≤ 2 ∧ (2:ℚ) ≤ 1)) ∧
    processOpt (initOptState .enc) (.m 1) =
      .ok { initOptState .enc with params.maxmemfrac := 1 } ∧
    processOpt (initOptState .enc) (.m 2) =
      .error ("Invalid option: -m " ++ toString (2:ℚ)) :=
  ⟨⟨⟨by decide, by decide⟩, by decide⟩,
   (maxmemfrac_option_range (initOptState .enc) 1).1 ⟨by decide, by decide⟩,
   (maxmemfrac_option_range (initOptState .enc) 2).2 (by decide)⟩

/-- C5: when the input file is standard input and the resolved passphrase
entry method is stdin-once (set by -P or by --passphrase dev:stdin-once),
main exits with code 1 and the conflict diagnostic; the whole trace is that
single warning, so no input byte and no passphrase has been read and no
output file has been touched. -/
theorem stdin_passphrase_conflict_rejected (c : Cmdline) (env : MainEnv)
    (st : OptState) (hdash : c.infileDash = true)
    (hok : processOpts (initOptState c.sub) c.opts = .ok st)
    (hent : st.passphrase_entry = .stdinOnce) :
    runMain c env = ⟨1, [Event.warn conflictMsg]⟩ := by
  unfold runMain
  rw [hok]
  simp [hdash, hent]

/-- Witness for C5: decrypting from stdin with -P. -/
theorem stdin_passphrase_conflict_rejected_witness :
    processOpts (initOptState .dec) stdinPCmd.opts =
      .ok { initOptState .dec with passphrase_entry := .stdinOnce } ∧
    runMain stdinPCmd allOkEnv = ⟨1, [Event.warn conflictMsg]⟩ :=
  ⟨rfl, stdin_passphrase_conflict_rejected stdinPCmd allOkEnv _ rfl rfl rfl⟩

/-- C7: the wrong-passphrase failure (EPASS) and the corrupt-input failure
(EINVAL) both exit with code 1 but print distinct fixed diagnostics, so the
two error kinds are never mapped to the same message. -/
theorem epass_einval_distinct_messages :
    (∀ i o : Option String,
      scryptErrMsg .epass i o = "Passphrase is incorrect") ∧
    (∀ i o : Option String,
      scryptErrMsg .einval i o = "Input is not valid scrypt-encrypted block") ∧
    (∀ i o i2 o2 : Option String,
      scryptErrMsg .epass i o ≠ scryptErrMsg .einval i2 o2) ∧
    (∀ (i o : Option String) (acc : List Event),
      (doneStep .epass i o acc).exit = 1 ∧
      (doneStep .einval i o acc).exit = 1 ∧
      Event.warn "Passphrase is incorrect" ∈ (doneStep .epass i o acc).trace ∧
      Event.warn "Input is not valid scrypt-encrypted block" ∈
        (doneStep .einval i o acc).trace) := by
  refine ⟨fun i o => rfl, fun i o => rfl, fun i o i2 o2 => ?_,
    fun i o acc => ?_⟩
  · simp [scryptErrMsg]
  · refine ⟨rfl, rfl, ?_, ?_⟩ <;> simp [doneStep, scryptErrMsg]

/-- C10: the params initializer is (0, 0.5, 300.0, 0, 0, 0); the enc
subcommand overrides the budget to maxmem = 0, maxmemfrac = 0.125,
maxtime = 5.0, while dec and info keep the initializer; and the -M, -m and
-t options override the respective field, for any subcommand, when the
argument passes the range check. -/
theorem default_resource_budget :
    paramsAfterSubcommand .enc =
      { maxmem := 0, maxmemfrac := 1/8, maxtime := 5,
        logN := 0, r := 0, p := 0 } ∧
    paramsAfterSubcommand .dec =
      { maxmem := 0, maxmemfrac := 1/2, maxtime := 300,
        logN := 0, r := 0, p := 0 } ∧
    paramsAfterSubcommand .info =
      { maxmem := 0, maxmemfrac := 1/2, maxtime := 300,
        logN := 0, r := 0, p := 0 } ∧
    (∀ (sub : Subcommand) (v : Nat), v ≤ sizeMax →
      processOpt (initOptState sub) (.M (some v)) =
        .ok { initOptState sub with params.maxmem := v }) ∧
    (∀ (sub : Subcommand) (q : ℚ), 0 ≤ q → q ≤ 1 →
      processOpt (initOptState sub) (.m q) =
        .ok { initOptState sub with params.maxmemfrac := q }) ∧
    (∀ (sub : Subcommand) (q : ℚ), 0 ≤ q →
      processOpt (initOptState sub) (.t q) =
        .ok { initOptState sub with params.maxtime := q }) := by
  refine ⟨rfl, rfl, rfl, ?_, ?_, ?_⟩
  · intro sub v h
    simp [processOpt, Nat.not_lt.mpr h]
  · intro sub q h0 h1
    simp [processOpt, h0, h1]
  · intro sub q h0
    simp [processOpt, h0]

/-- Witness for C10 at concrete override values. -/
theorem default_resource_budget_witness :
    (42 ≤ sizeMax ∧ (0:ℚ) ≤ 1 ∧ (1:ℚ) ≤ 1 ∧ (0:ℚ) ≤ 7) ∧
    processOpt (initOptState .enc) (.M (some 42)) =
      .ok { initOptState .enc with params.maxmem := 42 } ∧
    processOpt (initOptState .dec) (.m 1) =
      .ok { initOptState .dec with params.maxmemfrac := 1 } ∧
    processOpt (initOptState .dec) (.t 7) =
      .ok { initOptState .dec with params.maxtime := 7 } :=
  ⟨⟨by decide, by decide, by decide, by decide⟩,
   default_resource_budget.2.2.2.1 .enc 42 (by decide),
   default_resource_budget.2.2.2.2.1 .dec 1 (by decide) (by decide),
   default_resource_budget.2.2.2.2.2 .dec 7 (by decide)⟩

/-- C6 counterexample: the command line enc --passphrase bogus -P contains
two passphrase options, and the run exits with code 1, but the diagnostic
is the Invalid option message for the malformed first --passphrase, not the
claimed one-passphrase diagnostic. -/
theorem dup_passphrase_diagnostic_counterexample :
    runMain dupMalformedCmd allOkEnv =
      ⟨1, [Event.warn "Invalid option: --passphrase bogus"]⟩ ∧
    Event.warn dupPassphraseMsg ∉ (runMain dupMalformedCmd allOkEnv).trace :=
  ⟨by decide, by decide⟩

/-- C6 (amended): for every command line containing more than one
passphrase option, if every option before the second passphrase option is
processed successfully (in particular the first passphrase option is
well-formed), the program exits with code 1 and the diagnostic that only
one --passphrase or -P argument may be given. -/
theorem dup_passphrase_rejected (c : Cmdline) (env : MainEnv)
    (pre mid post : List CliOpt) (o1 o2 : CliOpt) (st : OptState)
    (hopts : c.opts = pre ++ o1 :: (mid ++ o2 :: post))
    (h1 : isPassOpt o1 = true) (h2 : isPassOpt o2 = true)
    (hpre : processOpts (initOptState c.sub) (pre ++ o1 :: mid) = .ok st) :
    runMain c env = ⟨1, [Event.warn dupPassphraseMsg]⟩ := by
  have hset : st.passphrase_entry ≠ PassphraseEntry.unset := by
    rw [processOpts_append] at hpre
    cases hA : processOpts (initOptState c.sub) pre with
    | error e =>
      rw [hA] at hpre
      exact absurd hpre (by simp)
    | ok stA =>
      rw [hA] at hpre
      simp only [processOpts] at hpre
      cases hB : processOpt stA o1 with
      | error e =>
        rw [hB] at hpre
        exact absurd hpre (by simp)
      | ok stB =>
        rw [hB] at hpre
        exact processOpts_preserves_set hpre (processOpt_pass_sets h1 hB)
  have hfull : processOpts (initOptState c.sub) c.opts =
      .error dupPassphraseMsg := by
    have he : c.opts = (pre ++ o1 :: mid) ++ (o2 :: post) := by
      rw [hopts]
      simp
    rw [he, processOpts_append, hpre]
    simp only [processOpts]
    rw [processOpt_pass_dup hset h2]
  unfold runMain
  rw [hfull]

/-- Witness for the amended C6 theorem: -P given twice. -/
theorem dup_passphrase_rejected_witness :
    isPassOpt CliOpt.P = true ∧
    processOpts (initOptState .enc) ([] ++ CliOpt.P :: []) =
      .ok { initOptState .enc with passphrase_entry := .stdinOnce } ∧
    runMain dupTwicePCmd allOkEnv = ⟨1, [Event.warn dupPassphraseMsg]⟩ :=
  ⟨rfl, rfl,
   dup_passphrase_rejected dupTwicePCmd allOkEnv [] [] [] .P .P
     { initOptState .enc with passphrase_entry := .stdinOnce } rfl rfl rfl rfl⟩

/-- C9: when no -P and no --passphrase option is given, the passphrase
entry method defaults to tty-stdin (the readpass call with devtty = 1),
with the confirmation prompt exactly when the subcommand is not dec. -/
theorem default_passphrase_tty_stdin (c : Cmdline) (env : MainEnv)
    (st : OptState) (hnop : ∀ o ∈ c.opts, isPassOpt o = false)
    (hok : processOpts (initOptState c.sub) c.opts = .ok st)
    (hinfo : isInfo c.sub = false)
    (hin : c.infileDash = false → env.openInfileOk = true) :
    Event.readPass 1 (if isDec c.sub then none
      else some "Please confirm passphrase") ∈ (runMain c env).trace := by
  have hent : st.passphrase_entry = PassphraseEntry.unset := by
    simpa [initOptState] using processOpts_entry_eq hnop hok
  unfold runMain
  rw [hok]
  dsimp only
  rw [hent]
  simp only [eq_self_iff_true, if_true]
  by_cases hd : c.infileDash = true
  · rw [if_pos hd, if_neg (by decide :
      ¬(PassphraseEntry.ttyStdin = PassphraseEntry.stdinOnce))]
    unfold afterInput
    rw [if_neg (by simp [hinfo])]
    exact readPass_passwdPhase_ttyStdin (isDec c.sub) st.passphrase_arg env
      false none c.outfilename []
  · rw [if_neg hd, if_pos (hin (by simpa using hd))]
    unfold afterInput
    rw [if_neg (by simp [hinfo])]
    exact readPass_passwdPhase_ttyStdin (isDec c.sub) st.passphrase_arg env
      true (some c.infilename) c.outfilename [Event.openInput c.infilename]

/-- Witness for C9: encrypting a named file with no options. -/
theorem default_passphrase_tty_stdin_witness :
    (∀ o ∈ encFileCmd.opts, isPassOpt o = false) ∧
    Event.readPass 1 (if isDec encFileCmd.sub then none
      else some "Please confirm passphrase") ∈
      (runMain encFileCmd allOkEnv).trace :=
  ⟨by simp [encFileCmd],
   default_passphrase_tty_stdin encFileCmd allOkEnv (initOptState .enc)
     (by simp [encFileCmd]) rfl rfl (fun _ => rfl)⟩

theorem openOutput_afterInput_dec {n : String} {entry : PassphraseEntry}
    {parg : String} {env : MainEnv} {io : Bool} {i o : Option String}
    {acc : List Event}
    (h : Event.openOutput n ∈ (afterInput .dec entry parg env io i o acc).trace) :
    Event.openOutput n ∈ acc ∨
      (env.prepResult = .ok ∧ o = some n ∧
        Event.prepCall ∈ (afterInput .dec entry parg env io i o acc).trace) := by
  unfold afterInput at h ⊢
  rw [if_neg (by decide : ¬(isInfo Subcommand.dec = true))] at h ⊢
  exact openOutput_passwdPhase_dec h

theorem exit_afterInput_dec_fail {entry : PassphraseEntry} {parg : String}
    {env : MainEnv} {io : Bool} {i o : Option String} {acc : List Event}
    (h : env.prepResult ≠ .ok) :
    (afterInput .dec entry parg env io i o acc).exit = 1 := by
  unfold afterInput
  rw [if_neg (by decide : ¬(isInfo Subcommand.dec = true))]
  exact exit_passwdPhase_fail h

/-- C1: when decrypting, an openOutput event can occur only if
scryptdec_file_prep returned SCRYPT_OK (and the prep call is in the trace);
when prep fails, main exits with code 1 and the output file is never
opened. -/
theorem dec_output_opened_only_after_prep_success (c : Cmdline)
    (env : MainEnv) (hdec : c.sub = .dec) :
    (∀ n, Event.openOutput n ∈ (runMain c env).trace →
      env.prepResult = .ok ∧ Event.prepCall ∈ (runMain c env).trace) ∧
    (env.prepResult ≠ .ok →
      (runMain c env).exit = 1 ∧
      ∀ n, Event.openOutput n ∉ (runMain c env).trace) := by
  obtain ⟨sub, opts, dash, infn, outn⟩ := c
  simp only at hdec
  subst hdec
  unfold runMain
  dsimp only
  cases hps : processOpts (initOptState .dec) opts with
  | error e =>
    refine ⟨fun n hmem => absurd hmem (by simp), fun hprep => ⟨rfl, fun n => by simp⟩⟩
  | ok st =>
    dsimp only
    by_cases hd : dash = true
    · rw [if_pos hd]
      by_cases hc : (if st.passphrase_entry = PassphraseEntry.unset then
          PassphraseEntry.ttyStdin else st.passphrase_entry) =
          PassphraseEntry.stdinOnce
      · rw [if_pos hc]
        exact ⟨fun n hmem => absurd hmem (by simp),
          fun hprep => ⟨rfl, fun n => by simp⟩⟩
      · rw [if_neg hc]
        constructor
        · intro n hmem
          rcases openOutput_afterInput_dec hmem with h' | ⟨hp, _, hpc⟩
          · exact absurd h' (by simp)
          · exact ⟨hp, hpc⟩
        · intro hprep
          refine ⟨exit_afterInput_dec_fail hprep, fun n hmem => ?_⟩
          rcases openOutput_afterInput_dec hmem with h' | ⟨hp, _, _⟩
          · exact absurd h' (by simp)
          · exact hprep hp
    · rw [if_neg hd]
      by_cases ho : env.openInfileOk = true
      · rw [if_pos ho]
        constructor
        · intro n hmem
          rcases openOutput_afterInput_dec hmem with h' | ⟨hp, _, hpc⟩
          · exact absurd h' (by simp)
          · exact ⟨hp, hpc⟩
        · intro hprep
          refine ⟨exit_afterInput_dec_fail hprep, fun n hmem => ?_⟩
          rcases openOutput_afterInput_dec hmem with h' | ⟨hp, _, _⟩
          · exact absurd h' (by simp)
          · exact hprep hp
      · rw [if_neg ho]
        exact ⟨fun n hmem => absurd hmem (by simp),
          fun hprep => ⟨rfl, fun n => by simp⟩⟩

/-- Witness for C1: decrypting with a wrong passphrase (prep returns EPASS)
exits 1 and never opens the output file. -/
theorem dec_output_opened_only_after_prep_success_witness :
    (prepFailEnv.prepResult ≠ ScryptRC.ok) ∧
    (runMain decFileCmd prepFailEnv).exit = 1 ∧
    (∀ n, Event.openOutput n ∉ (runMain decFileCmd prepFailEnv).trace) :=
  ⟨by decide,
   ((dec_output_opened_only_after_prep_success decFileCmd prepFailEnv
     rfl).2 (by decide)).1,
   ((dec_output_opened_only_after_prep_success decFileCmd prepFailEnv
     rfl).2 (by decide)).2⟩

theorem afterInput_zeroized {sub : Subcommand} {entry : PassphraseEntry}
    {parg : String} {env : MainEnv} {io : Bool} {i o : Option String}
    {acc : List Event} (hacc : Event.getPasswd ∉ acc)
    (h : Event.getPasswd ∈ (afterInput sub entry parg env io i o acc).trace) :
    ∃ pre post, (afterInput sub entry parg env io i o acc).trace =
      pre ++ Event.memzeroPasswd :: Event.freePasswd :: post ∧
      Event.getPasswd ∈ pre := by
  unfold afterInput at h ⊢
  by_cases hi : isInfo sub = true
  · rw [if_pos hi] at h
    have hmem := getPasswd_doneStep h
    rcases List.mem_append.1 hmem with h' | h'
    · rcases List.mem_append.1 h' with h'' | h''
      · exact absurd h'' hacc
      · simp at h''
    · revert h'
      split <;> simp
  · rw [if_neg hi] at h ⊢
    exact passwdPhase_zeroized hacc h

/-- C8: on every exit path that runs after the passphrase buffer has been
acquired, the buffer is zeroed with insecure_memzero immediately before it
is freed: whenever getPasswd is in the trace, the trace contains a
memzeroPasswd event directly followed by freePasswd, with the acquisition
before them. -/
theorem passwd_zeroized_before_free (c : Cmdline) (env : MainEnv)
    (h : Event.getPasswd ∈ (runMain c env).trace) :
    ∃ pre post, (runMain c env).trace =
      pre ++ Event.memzeroPasswd :: Event.freePasswd :: post ∧
      Event.getPasswd ∈ pre := by
  revert h
  unfold runMain
  cases hps : processOpts (initOptState c.sub) c.opts with
  | error e =>
    intro h
    exact absurd h (by simp)
  | ok st =>
    intro h
    dsimp only at h ⊢
    by_cases hd : c.infileDash = true
    · rw [if_pos hd] at h ⊢
      by_cases hc : (if st.passphrase_entry = PassphraseEntry.unset then
          PassphraseEntry.ttyStdin else st.passphrase_entry) =
          PassphraseEntry.stdinOnce
      · rw [if_pos hc] at h
        exact absurd h (by simp)
      · rw [if_neg hc] at h ⊢
        exact afterInput_zeroized (by simp) h
    · rw [if_neg hd] at h ⊢
      by_cases ho : env.openInfileOk = true
      · rw [if_pos ho] at h ⊢
        exact afterInput_zeroized (by simp) h
      · rw [if_neg ho] at h
        exact absurd h (by simp)

/-- Witness for C8: a successful decrypt run acquires the passphrase and
the trace shows it zeroed before the free. -/
theorem passwd_zeroized_before_free_witness :
    Event.getPasswd ∈ (runMain decFileCmd allOkEnv).trace ∧
    ∃ pre post, (runMain decFileCmd allOkEnv).trace =
      pre ++ Event.memzeroPasswd :: Event.freePasswd :: post ∧
      Event.getPasswd ∈ pre :=
  ⟨by decide, passwd_zeroized_before_free decFileCmd allOkEnv (by decide)⟩

end Scrypt
